import Mathlib

/-!
# Verification of the WER-BPE error-rate accumulator (`wer_bpe.py`)

Shallow embedding of the operative parts of
`nemo/collections/asr/metrics/wer_bpe.py`:

* `WERBPE.__init__` creates two scalar state tensors `scores` and `words`,
  both `torch.tensor(0)` (int64 zero), with distributed reduction `'sum'`.
* `WERBPE.update` builds the reference strings by truncating each row of
  `targets` to `target_lengths[ind]` and decoding through
  `CTCBPEDecoding.decode_tokens_to_str` (which calls `tokenizer.ids_to_text`
  directly, no folding); obtains hypothesis strings from the external batch
  decoder `ctc_decoder_predictions_tensor`; optionally logs the first
  sample's reference and hypothesis; then for every `(h, r)` pair of
  `zip(hypotheses, references)` splits into units (characters when
  `use_cer`, whitespace words otherwise), sums reference-unit counts and
  Levenshtein distances, and finally ASSIGNS the batch-local sums to
  `self.scores` / `self.words` (it does not add them to the running state).
* `WERBPE.compute` casts both state scalars to float and returns
  `(scores / words, scores, words)` without mutating state.

The tokenizer (`ids_to_text`) and the external batch decoder are
collaborators outside this file; they are abstracted as function / list
parameters.  Machine floats are idealized as exact rationals except for the
IEEE behaviour of division by zero, which is modelled explicitly.
-/

namespace WerBpe

/-- Split a character list at every whitespace character, keeping empty
pieces (the char-level analogue of splitting a string on each whitespace
occurrence). -/
def splitOnWs : List Char → List (List Char)
  | [] => [[]]
  | c :: cs =>
    if c.isWhitespace then [] :: splitOnWs cs
    else
      match splitOnWs cs with
      | [] => [[c]]
      | w :: ws => (c :: w) :: ws

/-- Python's `str.split()` with no arguments: split on whitespace and
discard empty pieces (so runs of whitespace and leading/trailing whitespace
produce nothing).  Embeds the `h.split()` / `r.split()` calls of
`WERBPE.update` (word mode). -/
def pySplit (s : String) : List String :=
  ((splitOnWs s.toList).map (fun w => String.mk w)).filter (fun p => p ≠ "")

/-- Levenshtein edit distance between two unit sequences (unit insert /
delete / substitute, cost 1 each).  Embeds the external
`editdistance.eval(h_list, r_list)` call of `WERBPE.update`, using Mathlib's
`levenshtein` with the unit cost structure. -/
def editDistanceEval {α : Type} [DecidableEq α] (xs ys : List α) : Nat :=
  levenshtein Levenshtein.defaultCost xs ys

/-- The two scalar state tensors of `WERBPE`: `scores` (summed Levenshtein
distances) and `words` (summed reference-unit counts).  Both are int64
scalars in the source (`torch.tensor(0)`), modelled as unbounded `Int`
(realistic magnitudes never approach 2^63). -/
structure WERState where
  scores : Int
  words : Int
deriving DecidableEq, Repr

/-- State created by `WERBPE.__init__`:
`add_state("scores", default=torch.tensor(0), ...)` and likewise `words`. -/
def initState : WERState := ⟨0, 0⟩

/-- The distributed reduction declared by `add_state(..., dist_reduce_fx='sum')`:
merging two accumulators' states sums them pairwise. -/
def mergeStates (a b : WERState) : WERState :=
  ⟨a.scores + b.scores, a.words + b.words⟩

/-- Configuration flags of `WERBPE.__init__` relevant to `update`.
(`fold_consecutive` only parameterizes the external hypothesis decoder and
`dist_sync_on_step` only the framework, so neither appears here.) -/
structure WERConfig where
  use_cer : Bool
  log_prediction : Bool
deriving DecidableEq, Repr

/-- `CTCBPEDecoding.decode_tokens_to_str` (lines 68-79): applies the
collaborating tokenizer's `ids_to_text` (`itt`) to the token-id list
directly — no folding and no blank removal happen on this path. -/
def decode_tokens_to_str (itt : List Nat → String) (tokens : List Nat) : String :=
  itt tokens

/-- The reference-building loop of `WERBPE.update` (lines 176-180):
`for ind in range(targets.shape[0])`, truncate row `ind` of `targets` to
`target_lengths[ind]`, decode via `decode_tokens_to_str`, and append.
Indexing is total via `getD`; the well-shaped precondition
`lens.length = targets.length` of the source makes `getD` coincide with
Python's checked indexing. -/
def buildReferences (itt : List Nat → String) (targets : List (List Nat))
    (lens : List Nat) : List String :=
  (List.range targets.length).foldl
    (fun refs ind =>
      refs ++ [decode_tokens_to_str itt ((targets.getD ind []).take (lens.getD ind 0))]) []

/-- The per-pair accumulation loop of `WERBPE.update` (lines 191-200):
starting from local accumulators `scores = 0`, `words = 0`, for each
`(h, r)` in `zip(hypotheses, references)` split both strings into units
(characters when `use_cer`, whitespace words otherwise), then
`words += len(r_list)` and `scores += editdistance.eval(h_list, r_list)`.
Result is the `(scores, words)` pair of batch-local totals.  The Python
accumulators are floats holding exact small-integer sums, so `Nat` is
exact here. -/
def batchTotals (use_cer : Bool) (pairs : List (String × String)) : Nat × Nat :=
  pairs.foldl
    (fun acc p =>
      if use_cer then
        (acc.1 + editDistanceEval p.1.toList p.2.toList, acc.2 + p.2.toList.length)
      else
        (acc.1 + editDistanceEval (pySplit p.1) (pySplit p.2), acc.2 + (pySplit p.2).length))
    (0, 0)

/-- Outcome of one `WERBPE.update` call: the object state after the call,
the optional diagnostic record (the `reference:`/`predicted:` log of the
first sample, emitted when `log_prediction` is set), and whether the call
escaped with an `IndexError` (reading `references[0]` / `hypotheses[0]`
on an empty batch). -/
structure UpdateResult where
  state : WERState
  diag : Option (String × String)
  raised : Bool
deriving DecidableEq, Repr

/-- `WERBPE.update` (lines 151-203).  `itt` is the collaborating tokenizer's
`ids_to_text`; `hyps` is the hypothesis-string list produced by the external
batch decoder `ctc_decoder_predictions_tensor` (outside this file).
Control flow follows the source: build references; if `log_prediction`,
read `references[0]` and `hypotheses[0]` (IndexError on an empty list, in
which case the state assignment at lines 202-203 never runs and the state
is unchanged); otherwise compute the batch-local totals and ASSIGN them to
the state (overwriting, not adding — `self.scores = torch.tensor(scores, ...)`). -/
def update (cfg : WERConfig) (itt : List Nat → String) (st : WERState)
    (targets : List (List Nat)) (lens : List Nat) (hyps : List String) :
    UpdateResult :=
  let references := buildReferences itt targets lens
  if cfg.log_prediction ∧ (references = [] ∨ hyps = []) then
    { state := st, diag := none, raised := true }
  else
    let diag := if cfg.log_prediction then
        some (references.getD 0 "", hyps.getD 0 "") else none
    let totals := batchTotals cfg.use_cer (hyps.zip references)
    { state := ⟨(totals.1 : Int), (totals.2 : Int)⟩, diag := diag, raised := false }

/-- Idealized float value: exact rational, or one of the IEEE non-finite
results that division can produce.  `WERBPE.compute` divides two float32
scalars; the only inexactness relevant to the claims is division by zero. -/
inductive F32 where
  | val (q : ℚ)
  | posInf
  | negInf
  | nan
deriving DecidableEq, Repr

/-- Float division with IEEE zero-divisor behaviour: `0/0 = nan`,
`x/0 = ±inf` for `x ≠ 0`; otherwise exact. -/
def fdiv (a b : ℚ) : F32 :=
  if b = 0 then (if a = 0 then F32.nan else if 0 < a then F32.posInf else F32.negInf)
  else F32.val (a / b)

/-- `WERBPE.compute` (lines 206-209): cast both state scalars to float and
return `(scores / words, scores, words)`.  The state is returned unchanged
(the method only reads `self.scores` / `self.words`). -/
def compute (st : WERState) : (F32 × ℚ × ℚ) × WERState :=
  ((fdiv (st.scores : ℚ) (st.words : ℚ), ((st.scores : Int) : ℚ), ((st.words : Int) : ℚ)), st)

/-- Follows the spec's words (§6, claim C7), for comparison with the code:
with `batch_dim_index = 0` the stored matrix is sample-major and sample `i`
is row `i`; with `batch_dim_index = 1` it is time-major (`Time × Batch`)
and sample `i` is column `i`.  Reference `i` is sample `i` truncated to
`lens[i]` and decoded directly. -/
def specReferencesByBatchDim (bdi : Nat) (itt : List Nat → String)
    (stored : List (List Nat)) (lens : List Nat) (batchSize : Nat) : List String :=
  (List.range batchSize).map (fun i =>
    let sample := if bdi = 0 then stored.getD i []
                  else stored.map (fun row => row.getD i 0)
    itt (sample.take (lens.getD i 0)))

/-- A concrete `ids_to_text` instance used in closed test cases: renders each
id as its decimal numeral and joins with single spaces (so an `n`-id sequence
decodes to an `n`-word string). -/
def demoItt (ids : List Nat) : String :=
  String.intercalate " " (ids.map (fun n => Nat.repr n))

/-! ## Helper lemmas -/

theorem foldl_append_map {α β : Type} (f : α → β) (l : List α) (acc : List β) :
    l.foldl (fun a x => a ++ [f x]) acc = acc ++ l.map f := by
  induction l generalizing acc with
  | nil => simp
  | cons x xs ih => simp [ih]

theorem buildReferences_eq_map (itt : List Nat → String) (t : List (List Nat))
    (l : List Nat) :
    buildReferences itt t l =
      (List.range t.length).map (fun i => itt ((t.getD i []).take (l.getD i 0))) := by
  simp [buildReferences, decode_tokens_to_str, foldl_append_map]

theorem buildReferences_length (itt : List Nat → String) (t : List (List Nat))
    (l : List Nat) : (buildReferences itt t l).length = t.length := by
  simp [buildReferences_eq_map]

theorem buildReferences_getD (itt : List Nat → String) (t : List (List Nat))
    (l : List Nat) (i : Nat) (hi : i < t.length) :
    (buildReferences itt t l).getD i "" = itt ((t.getD i []).take (l.getD i 0)) := by
  rw [buildReferences_eq_map, List.getD_eq_getElem?_getD, List.getElem?_map,
    List.getElem?_range hi]
  rfl

theorem buildReferences_append (itt : List Nat → String)
    (tA tB : List (List Nat)) (lA lB : List Nat) (hlA : lA.length = tA.length) :
    buildReferences itt (tA ++ tB) (lA ++ lB) =
      buildReferences itt tA lA ++ buildReferences itt tB lB := by
  rw [buildReferences_eq_map, buildReferences_eq_map, buildReferences_eq_map,
    List.length_append, List.range_add, List.map_append, List.map_map]
  congr 1
  · refine List.map_congr_left (fun i hi => ?_)
    rw [List.mem_range] at hi
    rw [List.getD_append _ _ _ _ hi, List.getD_append _ _ _ _ (hlA ▸ hi)]
  · refine List.map_congr_left (fun i _ => ?_)
    simp only [Function.comp_apply]
    rw [List.getD_append_right _ _ _ _ (Nat.le_add_right tA.length i),
      List.getD_append_right _ _ _ _ (hlA ▸ Nat.le_add_right tA.length i)]
    simp [hlA]

theorem batchTotals_foldl (u : Bool) (pairs : List (String × String)) (a b : Nat) :
    pairs.foldl
      (fun acc p =>
        if u then
          (acc.1 + editDistanceEval p.1.toList p.2.toList, acc.2 + p.2.toList.length)
        else
          (acc.1 + editDistanceEval (pySplit p.1) (pySplit p.2), acc.2 + (pySplit p.2).length))
      (a, b)
    = (a + (pairs.map (fun p => if u then editDistanceEval p.1.toList p.2.toList
              else editDistanceEval (pySplit p.1) (pySplit p.2))).sum,
       b + (pairs.map (fun p => if u then p.2.toList.length
              else (pySplit p.2).length)).sum) := by
  induction pairs generalizing a b with
  | nil => simp
  | cons p ps ih =>
    cases u <;> simp at ih ⊢ <;> simp [ih, Nat.add_assoc]

theorem batchTotals_eq_sum (u : Bool) (pairs : List (String × String)) :
    batchTotals u pairs
    = ((pairs.map (fun p => if u then editDistanceEval p.1.toList p.2.toList
          else editDistanceEval (pySplit p.1) (pySplit p.2))).sum,
       (pairs.map (fun p => if u then p.2.toList.length
          else (pySplit p.2).length)).sum) := by
  simpa using batchTotals_foldl u pairs 0 0

theorem batchTotals_append (u : Bool) (p q : List (String × String)) :
    batchTotals u (p ++ q)
    = ((batchTotals u p).1 + (batchTotals u q).1,
       (batchTotals u p).2 + (batchTotals u q).2) := by
  simp [batchTotals_eq_sum]

theorem update_raised_case (cfg : WERConfig) (itt : List Nat → String)
    (st : WERState) (t : List (List Nat)) (l : List Nat) (hyps : List String)
    (h : cfg.log_prediction = true ∧ (buildReferences itt t l = [] ∨ hyps = [])) :
    update cfg itt st t l hyps = { state := st, diag := none, raised := true } := by
  unfold update
  rw [if_pos h]

theorem update_ok_case (cfg : WERConfig) (itt : List Nat → String)
    (st : WERState) (t : List (List Nat)) (l : List Nat) (hyps : List String)
    (h : ¬(cfg.log_prediction = true ∧ (buildReferences itt t l = [] ∨ hyps = []))) :
    update cfg itt st t l hyps =
      { state := ⟨((batchTotals cfg.use_cer (hyps.zip (buildReferences itt t l))).1 : Int),
                  ((batchTotals cfg.use_cer (hyps.zip (buildReferences itt t l))).2 : Int)⟩,
        diag := if cfg.log_prediction then
            some ((buildReferences itt t l).getD 0 "", hyps.getD 0 "") else none,
        raised := false } := by
  unfold update
  rw [if_neg h]

theorem update_raised_iff (cfg : WERConfig) (itt : List Nat → String)
    (st : WERState) (t : List (List Nat)) (l : List Nat) (hyps : List String) :
    (update cfg itt st t l hyps).raised = true ↔
      (cfg.log_prediction = true ∧ (buildReferences itt t l = [] ∨ hyps = [])) := by
  constructor
  · intro hr
    by_contra hc
    rw [update_ok_case cfg itt st t l hyps hc] at hr
    simp at hr
  · intro hc
    rw [update_raised_case cfg itt st t l hyps hc]

/-! ## Claim C1 -/

/-- C1, counterexample.  The claim asserts that `scores` and `words` are
non-decreasing across `update()` calls, each call adding the batch's local
totals to the running totals.  On the code this is false: `update` ASSIGNS
the batch totals (`self.words = torch.tensor(words, ...)`).  Concretely, one
update with a two-word reference followed by one with an empty reference
makes `words` drop from 2 to 0. -/
theorem c1_counterexample :
    ((update ⟨false, false⟩ demoItt
        (update ⟨false, false⟩ demoItt initState [[1, 2]] [2] ["1 2"]).state
        [[5]] [0] [""]).state).words
    < ((update ⟨false, false⟩ demoItt initState [[1, 2]] [2] ["1 2"]).state).words := by
  decide

/-- C1, amended: after each completed `update()` call the state totals equal
that call's batch-local totals — `update()` overwrites the running totals
rather than adding to them, so the post-state is independent of the previous
state and the totals are not non-decreasing across calls in general. -/
theorem c1_overwrite (cfg : WERConfig) (itt : List Nat → String) (st : WERState)
    (t : List (List Nat)) (l : List Nat) (hyps : List String)
    (hr : (update cfg itt st t l hyps).raised = false) :
    (update cfg itt st t l hyps).state =
      ⟨((batchTotals cfg.use_cer (hyps.zip (buildReferences itt t l))).1 : Int),
       ((batchTotals cfg.use_cer (hyps.zip (buildReferences itt t l))).2 : Int)⟩
    ∧ ∀ st' : WERState,
        (update cfg itt st' t l hyps).state = (update cfg itt st t l hyps).state := by
  have hc : ¬(cfg.log_prediction = true ∧ (buildReferences itt t l = [] ∨ hyps = [])) := by
    intro hcon
    rw [update_raised_case cfg itt st t l hyps hcon] at hr
    simp at hr
  refine ⟨?_, fun st' => ?_⟩
  · rw [update_ok_case cfg itt st t l hyps hc]
  · rw [update_ok_case cfg itt st t l hyps hc, update_ok_case cfg itt st' t l hyps hc]

/-- C1, witness for `c1_overwrite` at a concrete batch. -/
theorem c1_overwrite_witness :
    (update ⟨false, false⟩ demoItt ⟨7, 7⟩ [[1, 2]] [2] ["1 2"]).state =
      ⟨((batchTotals false (["1 2"].zip (buildReferences demoItt [[1, 2]] [2]))).1 : Int),
       ((batchTotals false (["1 2"].zip (buildReferences demoItt [[1, 2]] [2]))).2 : Int)⟩ :=
  (c1_overwrite ⟨false, false⟩ demoItt ⟨7, 7⟩ [[1, 2]] [2] ["1 2"] (by decide)).1

/-! ## Claim C2 -/

/-- C2, counterexample.  The claim asserts that merging accumulators by
pairwise sum equals a single accumulator whose `update()` calls process the
concatenation of the batches.  False on the code: the single accumulator's
sequential `update()` calls overwrite, leaving only the last batch's totals,
while the merge sums all of them.  Here the merge gives `words = 3` but the
sequential accumulator ends with `words = 1`. -/
theorem c2_counterexample :
    mergeStates (update ⟨false, false⟩ demoItt initState [[1, 2]] [2] ["1 2"]).state
        (update ⟨false, false⟩ demoItt initState [[3]] [1] ["3"]).state
    ≠ (update ⟨false, false⟩ demoItt
        (update ⟨false, false⟩ demoItt initState [[1, 2]] [2] ["1 2"]).state
        [[3]] [1] ["3"]).state := by
  decide

/-- C2, amended: merging states by pairwise sum is associative and
commutative, and merging accumulators that each processed one batch yields
the state a single accumulator reaches by processing the concatenation of
the batches in a SINGLE `update()` call (not as a sequence of calls, since
`update()` overwrites the running totals). -/
theorem c2_merge (cfg : WERConfig) (itt : List Nat → String)
    (tA tB : List (List Nat)) (lA lB : List Nat) (hA hB : List String)
    (hlog : cfg.log_prediction = false)
    (hlA : lA.length = tA.length) (hhA : hA.length = tA.length) :
    (∀ a b c : WERState, mergeStates (mergeStates a b) c = mergeStates a (mergeStates b c))
    ∧ (∀ a b : WERState, mergeStates a b = mergeStates b a)
    ∧ mergeStates (update cfg itt initState tA lA hA).state
        (update cfg itt initState tB lB hB).state
      = (update cfg itt initState (tA ++ tB) (lA ++ lB) (hA ++ hB)).state := by
  have hc : ∀ (t : List (List Nat)) (l : List Nat) (h : List String),
      ¬(cfg.log_prediction = true ∧ (buildReferences itt t l = [] ∨ h = [])) := by
    intro t l h hcon
    rw [hlog] at hcon
    exact Bool.false_ne_true hcon.1
  refine ⟨fun a b c => ?_, fun a b => ?_, ?_⟩
  · simp [mergeStates, Int.add_assoc]
  · simp [mergeStates, Int.add_comm]
  · rw [update_ok_case cfg itt initState tA lA hA (hc tA lA hA),
      update_ok_case cfg itt initState tB lB hB (hc tB lB hB),
      update_ok_case cfg itt initState (tA ++ tB) (lA ++ lB) (hA ++ hB)
        (hc (tA ++ tB) (lA ++ lB) (hA ++ hB))]
    have hrefs : buildReferences itt (tA ++ tB) (lA ++ lB)
        = buildReferences itt tA lA ++ buildReferences itt tB lB :=
      buildReferences_append itt tA tB lA lB hlA
    have hzip : (hA ++ hB).zip (buildReferences itt tA lA ++ buildReferences itt tB lB)
        = hA.zip (buildReferences itt tA lA) ++ hB.zip (buildReferences itt tB lB) :=
      List.zip_append (by rw [hhA, buildReferences_length])
    simp only [mergeStates, hrefs, hzip, batchTotals_append]
    simp

/-- C2, witness for `c2_merge` at concrete batches. -/
theorem c2_merge_witness :
    mergeStates (update ⟨false, false⟩ demoItt initState [[1, 2]] [2] ["1 2"]).state
        (update ⟨false, false⟩ demoItt initState [[3]] [1] ["3"]).state
      = (update ⟨false, false⟩ demoItt initState ([[1, 2]] ++ [[3]]) ([2] ++ [1])
          (["1 2"] ++ ["3"])).state :=
  (c2_merge ⟨false, false⟩ demoItt [[1, 2]] [[3]] [2] [1] ["1 2"] ["3"]
    rfl (by decide) (by decide)).2.2

/-! ## Claim C3 -/

/-- C3: `compute()` returns the 3-tuple `(scores / words, scores, words)`
and never changes the accumulator state — reading is idempotent, any number
of `compute()` calls leaves the state fixed. -/
theorem c3_compute_read (st : WERState) :
    (compute st).2 = st
    ∧ (∀ n : Nat, (fun s => (compute s).2)^[n] st = st)
    ∧ (compute st).1
      = (fdiv (st.scores : ℚ) (st.words : ℚ), ((st.scores : Int) : ℚ), ((st.words : Int) : ℚ)) := by
  refine ⟨rfl, fun n => ?_, rfl⟩
  induction n with
  | zero => rfl
  | succ k ih => rw [Function.iterate_succ_apply', ih]; rfl

/-! ## Claim C4 -/

/-- C4: with `words = 0`, `compute()` performs the division anyway and the
first component is the numeric representation's division-by-zero result —
not-a-number (when `scores = 0`) or positive infinity — never a finite
sentinel value, and `compute` is total (no exception path exists). -/
theorem c4_div_by_zero (st : WERState) (h0 : 0 ≤ st.scores) (hw : st.words = 0) :
    ((compute st).1.1 = F32.nan ∨ (compute st).1.1 = F32.posInf)
    ∧ ∀ q : ℚ, (compute st).1.1 ≠ F32.val q := by
  have hw' : ((st.words : Int) : ℚ) = 0 := by rw [hw]; norm_num
  have h0' : (0 : ℚ) ≤ ((st.scores : Int) : ℚ) := by exact_mod_cast h0
  by_cases hs : ((st.scores : Int) : ℚ) = 0
  · simp [compute, fdiv, hw', hs]
  · have hpos : (0 : ℚ) < ((st.scores : Int) : ℚ) := lt_of_le_of_ne h0' (Ne.symm hs)
    simp [compute, fdiv, hw', hs, hpos]

/-- C4, witness for `c4_div_by_zero` at the concrete state `(3, 0)`. -/
theorem c4_div_by_zero_witness :
    ((compute ⟨3, 0⟩).1.1 = F32.nan ∨ (compute ⟨3, 0⟩).1.1 = F32.posInf)
    ∧ ∀ q : ℚ, (compute ⟨3, 0⟩).1.1 ≠ F32.val q :=
  c4_div_by_zero ⟨3, 0⟩ (by decide) (by decide)

/-! ## Claim C5 -/

/-- C5: the reference list built by `update()` has one entry per batch row,
and entry `i` is exactly the token-to-string decoding (`decode_tokens_to_str`,
i.e. `ids_to_text` applied directly, with no folding and no blank removal)
of target sequence `i` truncated to its first `target_lengths[i]` ids —
batch index order is preserved, so `reference[i]` lines up with
`hypothesis[i]`. -/
theorem c5_reference_decoding (itt : List Nat → String) (t : List (List Nat))
    (l : List Nat) :
    (buildReferences itt t l).length = t.length
    ∧ ∀ i, i < t.length →
        (buildReferences itt t l).getD i ""
          = decode_tokens_to_str itt ((t.getD i []).take (l.getD i 0)) := by
  refine ⟨buildReferences_length itt t l, fun i hi => ?_⟩
  rw [buildReferences_getD itt t l i hi]
  rfl

/-- C5, witness for `c5_reference_decoding` at batch index 1 of a concrete
two-sample batch. -/
theorem c5_reference_decoding_witness :
    (buildReferences demoItt [[1, 2], [3, 4]] [1, 2]).getD 1 ""
      = decode_tokens_to_str demoItt
          ((([[1, 2], [3, 4]] : List (List Nat)).getD 1 []).take
            (([1, 2] : List Nat).getD 1 0)) :=
  (c5_reference_decoding demoItt [[1, 2], [3, 4]] [1, 2]).2 1 (by decide)

/-! ## Claim C6 -/

/-- C6: in a completed `update()` call, the assigned `scores` total is the
sum over the paired `(hypothesis, reference)` list of the Levenshtein
distance between the two unit lists (single characters in character mode,
whitespace-split words in word mode), and the assigned `words` total is the
sum of the reference unit counts. -/
theorem c6_unit_totals (cfg : WERConfig) (itt : List Nat → String) (st : WERState)
    (t : List (List Nat)) (l : List Nat) (hyps : List String)
    (hr : (update cfg itt st t l hyps).raised = false) :
    (update cfg itt st t l hyps).state.scores
      = (((hyps.zip (buildReferences itt t l)).map (fun p =>
            if cfg.use_cer then editDistanceEval p.1.toList p.2.toList
            else editDistanceEval (pySplit p.1) (pySplit p.2))).sum : Nat)
    ∧ (update cfg itt st t l hyps).state.words
      = (((hyps.zip (buildReferences itt t l)).map (fun p =>
            if cfg.use_cer then p.2.toList.length
            else (pySplit p.2).length)).sum : Nat) := by
  have hc : ¬(cfg.log_prediction = true ∧ (buildReferences itt t l = [] ∨ hyps = [])) := by
    intro hcon
    rw [update_raised_case cfg itt st t l hyps hcon] at hr
    simp at hr
  rw [update_ok_case cfg itt st t l hyps hc]
  rw [batchTotals_eq_sum]
  exact ⟨rfl, rfl⟩

/-- C6, witness for `c6_unit_totals` at a concrete word-mode batch. -/
theorem c6_unit_totals_witness :
    (update ⟨false, false⟩ demoItt initState [[1, 2]] [2] ["1 2"]).state.scores
      = (((["1 2"].zip (buildReferences demoItt [[1, 2]] [2])).map (fun p =>
            editDistanceEval (pySplit p.1) (pySplit p.2))).sum : Nat) :=
  (c6_unit_totals ⟨false, false⟩ demoItt initState [[1, 2]] [2] ["1 2"] (by decide)).1

/-! ## Claim C7 -/

/-- C7: the reference loop of `update()` always iterates the FIRST axis of
`targets`, ignoring `batch_dim_index`.  With `batch_dim_index = 0` this
agrees with the documented sample-major reading, but with
`batch_dim_index = 1` (targets stored time-major, as the method's own
docstring declares) the code decodes time rows instead of samples: on the
stored matrix `[[1, 2], [3, 4]]` with lengths `[1, 2]` the code produces
`["1", "3 4"]` while sample-wise decoding per the configuration gives
`["1", "2 4"]`. -/
theorem c7_batch_dim_ignored (itt : List Nat → String) (t : List (List Nat))
    (l : List Nat) :
    specReferencesByBatchDim 0 itt t l t.length = buildReferences itt t l
    ∧ buildReferences demoItt [[1, 2], [3, 4]] [1, 2] = ["1", "3 4"]
    ∧ specReferencesByBatchDim 1 demoItt [[1, 2], [3, 4]] [1, 2] 2 = ["1", "2 4"]
    ∧ buildReferences demoItt [[1, 2], [3, 4]] [1, 2]
        ≠ specReferencesByBatchDim 1 demoItt [[1, 2], [3, 4]] [1, 2] 2 := by
  refine ⟨?_, by decide, by decide, by decide⟩
  rw [buildReferences_eq_map]
  rfl

/-! ## Claim C8 -/

/-- C8, counterexample.  The claim quantifies over EVERY batch: but on an
empty batch the flag does affect state — with logging enabled `update`
raises before the state assignment (leaving the old state), while with
logging disabled it completes and overwrites the state with the empty
batch's zero totals.  Starting from state `(0, 2)` the two resulting states
differ. -/
theorem c8_counterexample :
    (update ⟨false, true⟩ demoItt ⟨0, 2⟩ [] [] []).state
      ≠ (update ⟨false, false⟩ demoItt ⟨0, 2⟩ [] [] []).state := by
  decide

/-- C8, amended: for every batch on which `update()` completes — in
particular every batch with at least one target row and one hypothesis —
the post-state is identical whether the log-prediction flag is enabled or
disabled; when enabled, `update()` emits exactly one diagnostic record
holding the first sample's reference and hypothesis strings, and nothing
else changes; when disabled it emits none.  (On an empty batch with the
flag enabled, `update()` instead raises and leaves the state unchanged.) -/
theorem c8_log_frame (u : Bool) (itt : List Nat → String) (st : WERState)
    (t : List (List Nat)) (l : List Nat) (hyps : List String)
    (ht : t ≠ []) (hh : hyps ≠ []) :
    (update ⟨u, true⟩ itt st t l hyps).state = (update ⟨u, false⟩ itt st t l hyps).state
    ∧ (update ⟨u, true⟩ itt st t l hyps).raised = false
    ∧ (update ⟨u, true⟩ itt st t l hyps).diag
        = some ((buildReferences itt t l).getD 0 "", hyps.getD 0 "")
    ∧ (update ⟨u, false⟩ itt st t l hyps).diag = none := by
  have hrefs : buildReferences itt t l ≠ [] := by
    intro h0
    have hlen := buildReferences_length itt t l
    rw [h0] at hlen
    exact ht (List.length_eq_zero.mp hlen.symm)
  have hcT : ¬((⟨u, true⟩ : WERConfig).log_prediction = true
      ∧ (buildReferences itt t l = [] ∨ hyps = [])) := by
    rintro ⟨-, h | h⟩
    · exact hrefs h
    · exact hh h
  have hcF : ¬((⟨u, false⟩ : WERConfig).log_prediction = true
      ∧ (buildReferences itt t l = [] ∨ hyps = [])) := by
    rintro ⟨hfl, -⟩
    simp at hfl
  rw [update_ok_case _ itt st t l hyps hcT, update_ok_case _ itt st t l hyps hcF]
  simp

/-- C8, witness for `c8_log_frame` at a concrete one-sample batch. -/
theorem c8_log_frame_witness :
    (update ⟨false, true⟩ demoItt ⟨0, 2⟩ [[1, 2]] [2] ["1 2"]).state
      = (update ⟨false, false⟩ demoItt ⟨0, 2⟩ [[1, 2]] [2] ["1 2"]).state :=
  (c8_log_frame false demoItt ⟨0, 2⟩ [[1, 2]] [2] ["1 2"] (by decide) (by decide)).1

/-! ## Claim C9 -/

/-- C9: calling `update()` on an empty batch (no target rows, no
hypotheses) with the log-prediction flag enabled raises an index error when
reading `references[0]`, and the accumulator state is unchanged because the
state assignment comes after the logging step. -/
theorem c9_empty_batch_raises (cfg : WERConfig) (itt : List Nat → String)
    (st : WERState) (hlog : cfg.log_prediction = true) :
    (update cfg itt st [] [] []).raised = true
    ∧ (update cfg itt st [] [] []).state = st
    ∧ (update cfg itt st [] [] []).diag = none := by
  have hrefs : buildReferences itt [] [] = [] := rfl
  rw [update_raised_case cfg itt st [] [] [] ⟨hlog, Or.inl hrefs⟩]
  exact ⟨rfl, rfl, rfl⟩

/-- C9, witness for `c9_empty_batch_raises` at a concrete state. -/
theorem c9_empty_batch_raises_witness :
    (update ⟨false, true⟩ demoItt ⟨5, 7⟩ [] [] []).raised = true
    ∧ (update ⟨false, true⟩ demoItt ⟨5, 7⟩ [] [] []).state = (⟨5, 7⟩ : WERState)
    ∧ (update ⟨false, true⟩ demoItt ⟨5, 7⟩ [] [] []).diag = none :=
  c9_empty_batch_raises ⟨false, true⟩ demoItt ⟨5, 7⟩ rfl

/-! ## Claim C10 -/

/-- C10: the state is created with integer value 0 at construction, and
after any `update()` call (whether it completes and assigns the sums of
per-sample non-negative quantities, or raises and leaves the state alone)
both `scores` and `words` remain non-negative integers. -/
theorem c10_nonneg (cfg : WERConfig) (itt : List Nat → String) (st : WERState)
    (t : List (List Nat)) (l : List Nat) (hyps : List String)
    (hst : 0 ≤ st.scores ∧ 0 ≤ st.words) :
    (0 ≤ initState.scores ∧ 0 ≤ initState.words)
    ∧ 0 ≤ (update cfg itt st t l hyps).state.scores
    ∧ 0 ≤ (update cfg itt st t l hyps).state.words := by
  refine ⟨⟨le_refl 0, le_refl 0⟩, ?_, ?_⟩
  · by_cases hc : cfg.log_prediction = true ∧ (buildReferences itt t l = [] ∨ hyps = [])
    · rw [update_raised_case cfg itt st t l hyps hc]
      exact hst.1
    · rw [update_ok_case cfg itt st t l hyps hc]
      exact Int.natCast_nonneg _
  · by_cases hc : cfg.log_prediction = true ∧ (buildReferences itt t l = [] ∨ hyps = [])
    · rw [update_raised_case cfg itt st t l hyps hc]
      exact hst.2
    · rw [update_ok_case cfg itt st t l hyps hc]
      exact Int.natCast_nonneg _

/-- C10, witness for `c10_nonneg` at a concrete state and batch. -/
theorem c10_nonneg_witness :
    0 ≤ (update ⟨false, false⟩ demoItt ⟨0, 2⟩ [[1, 2]] [2] ["1 2"]).state.scores :=
  (c10_nonneg ⟨false, false⟩ demoItt ⟨0, 2⟩ [[1, 2]] [2] ["1 2"] (by decide)).2.1

end WerBpe
